import Mathlib

/-!
Verification development for the category dispatch-and-aggregation engine of
the PowerScale `info` Ansible module (`plugins/modules/info.py`).

The module fetches a caller-selected set of resource categories from a remote
cluster, normalizes each response, and returns one consolidated report in
which every category key is always present (unrequested categories hold an
empty default).  Dispatch is a fixed chain of
`if 'category' in str(subset):` tests; the first handler failure aborts the
whole invocation via `fail_json`.

The embedding below models:
  * Python values appearing in SDK `to_dict()` responses (`Value`, `Dict`);
  * the textual containment test `'c' in str(subset)` at the character level
    (`pyContains`), including Python's rendering of a list of strings;
  * the parameter tables of `get_info_parameters` and the dispatch chain and
    result dictionary of `Info.perform_module_operation`;
  * individual normalization functions cited by the claims
    (`get_sync_rule_limit_unit`, `get_user_mapping_rules`,
    `get_smb_shares_list`, `get_nfs_aliases_list`, `get_network_interfaces`).
-/

/-- Python-style values: the shapes appearing in SDK `to_dict()` responses and
in the module's result dictionary. -/
inductive Value where
  | vnull
  | vbool (b : Bool)
  | vint (n : Int)
  | vstr (s : String)
  | vlist (xs : List Value)
  | vdict (fields : List (String × Value))

/-- A Python dictionary, modelled as an insertion-ordered association list. -/
abbrev Dict := List (String × Value)

/-- Lookup of a key in a dictionary (`d[k]` returning `None`-style absence as
`Option.none`). -/
def dget : Dict → String → Option Value
  | [], _ => none
  | p :: rest, k => if p.1 = k then some p.2 else dget rest k

/-- Python dictionary assignment `d[k] = v`: overwrites the value in place when
the key exists (keeping its position), otherwise appends the new pair. -/
def dictSet (d : Dict) (k : String) (v : Value) : Dict :=
  if (dget d k).isSome then
    d.map (fun p => if p.1 = k then (k, v) else p)
  else
    d ++ [(k, v)]

/-- Python truthiness of a value (`if x:`). -/
def pyTruthy : Value → Bool
  | Value.vnull => false
  | Value.vbool b => b
  | Value.vint n => decide (n ≠ 0)
  | Value.vstr s => !s.isEmpty
  | Value.vlist xs => !xs.isEmpty
  | Value.vdict fs => !fs.isEmpty

/-! ### The textual membership test `'c' in str(subset)`

`Info.perform_module_operation` tests category selection with
`if 'category' in str(subset)`, i.e. substring containment in the Python
string rendering of the caller's list.  We model the rendering of a list of
(quote-free) strings character by character: `str(['a', 'b']) = "['a', 'b']"`.
-/

/-- The single-quote character used by Python's `repr` of a string. -/
def quoteChar : Char := Char.ofNat 39

/-- The comma separating rendered list elements. -/
def commaChar : Char := Char.ofNat 44

/-- The space following the comma in a rendered list. -/
def spaceChar : Char := Char.ofNat 32

/-- The opening bracket of a rendered list. -/
def lbrackChar : Char := Char.ofNat 91

/-- The closing bracket of a rendered list. -/
def rbrackChar : Char := Char.ofNat 93

/-- Boolean prefix test on character lists. -/
def isPrefixList : List Char → List Char → Bool
  | [], _ => true
  | _ :: _, [] => false
  | c :: cs, d :: ds => decide (c = d) && isPrefixList cs ds

/-- Boolean substring test on character lists: Python's `needle in hay`. -/
def isSubstr (n : List Char) : List Char → Bool
  | [] => n.isEmpty
  | c :: rest => isPrefixList n (c :: rest) || isSubstr n rest

/-- The comma-space separated, quoted rendering of the elements of a list of
strings, as produced between the brackets by Python's `str` on a list. -/
def renderItems : List String → List Char
  | [] => []
  | [x] => quoteChar :: (x.data ++ [quoteChar])
  | x :: y :: rest =>
      quoteChar :: (x.data ++ quoteChar :: commaChar :: spaceChar :: renderItems (y :: rest))

/-- Python's `str` of a list of (quote-free) strings, as a character list. -/
def renderSubset (l : List String) : List Char :=
  lbrackChar :: (renderItems l ++ [rbrackChar])

/-- The dispatch test `'c' in str(subset)` from `perform_module_operation`. -/
def pyContains (c : String) (subset : List String) : Bool :=
  isSubstr c.data (renderSubset subset)

/-! ### The category tables of `info.py` -/

/-- The 39 valid `gather_subset` choices, in the order they are declared in
`get_info_parameters`. -/
def gatherSubsetChoices : List String :=
  ["attributes", "access_zones", "nodes", "providers", "users", "groups",
   "smb_shares", "nfs_exports", "nfs_aliases", "clients", "synciq_reports",
   "synciq_target_reports", "synciq_policies",
   "synciq_target_cluster_certificates", "synciq_performance_rules",
   "network_groupnets", "network_pools", "network_rules",
   "network_interfaces", "network_subnets", "node_pools",
   "storagepool_tiers", "smb_files", "user_mapping_rules", "ldap",
   "nfs_zone_settings", "nfs_default_settings", "nfs_global_settings",
   "synciq_global_settings", "s3_buckets", "smb_global_settings",
   "ntp_servers", "email_settings", "cluster_identity", "cluster_owner",
   "snmp_settings", "server_certificate", "roles",
   "support_assist_settings"]

/-- The categories in the order of the `if 'c' in str(subset)` chain of
`Info.perform_module_operation` (the fixed dispatch order). -/
def dispatchOrder : List String :=
  ["attributes", "access_zones", "nodes", "providers", "users", "groups",
   "smb_shares", "clients", "nfs_exports", "nfs_aliases", "synciq_reports",
   "synciq_target_reports", "synciq_policies",
   "synciq_target_cluster_certificates", "synciq_performance_rules",
   "network_groupnets", "network_pools", "network_rules",
   "network_interfaces", "network_subnets", "node_pools",
   "storagepool_tiers", "smb_files", "user_mapping_rules", "ldap",
   "nfs_zone_settings", "nfs_default_settings", "nfs_global_settings",
   "synciq_global_settings", "s3_buckets", "smb_global_settings",
   "ntp_servers", "email_settings", "cluster_identity", "cluster_owner",
   "snmp_settings", "server_certificate", "roles",
   "support_assist_settings"]

theorem choices_minlen : ∀ x ∈ gatherSubsetChoices, 4 ≤ x.data.length := by decide

theorem choices_chars : ∀ x ∈ gatherSubsetChoices,
    quoteChar ∉ x.data ∧ lbrackChar ∉ x.data ∧ rbrackChar ∉ x.data := by decide

theorem choices_no_proper_substring : ∀ x ∈ gatherSubsetChoices, ∀ y ∈ gatherSubsetChoices,
    isSubstr x.data y.data = true → x = y := by decide

theorem dispatch_nodup : dispatchOrder.Nodup := by decide

theorem dispatch_valid : ∀ c ∈ dispatchOrder, c ∈ gatherSubsetChoices := by decide

/-! ### Substring lemmas -/

theorem isPrefixList_nil_left (h : List Char) : isPrefixList [] h = true := by
  cases h <;> rfl

theorem isPrefixList_length {n h : List Char} (hp : isPrefixList n h = true) :
    n.length ≤ h.length := by
  induction n generalizing h with
  | nil => simp
  | cons c cs ih =>
    cases h with
    | nil => simp [isPrefixList] at hp
    | cons d ds =>
      simp only [isPrefixList, Bool.and_eq_true] at hp
      simpa [Nat.succ_le_succ_iff] using ih hp.2

theorem isPrefixList_append_self (c t : List Char) :
    isPrefixList c (c ++ t) = true := by
  induction c with
  | nil => exact isPrefixList_nil_left t
  | cons x xs ih => simp [isPrefixList, ih]

theorem isPrefixList_extend {n h : List Char} (b : List Char)
    (hp : isPrefixList n h = true) : isPrefixList n (h ++ b) = true := by
  induction n generalizing h with
  | nil => exact isPrefixList_nil_left _
  | cons c cs ih =>
    cases h with
    | nil => simp [isPrefixList] at hp
    | cons d ds =>
      simp only [isPrefixList, Bool.and_eq_true] at hp
      simp [isPrefixList, hp.1, ih hp.2]

theorem isPrefixList_split {q : Char} {n a b : List Char} (hq : q ∉ n)
    (hp : isPrefixList n (a ++ q :: b) = true) : isPrefixList n a = true := by
  induction n generalizing a with
  | nil => exact isPrefixList_nil_left a
  | cons c cs ih =>
    cases a with
    | nil =>
      simp only [List.nil_append, isPrefixList, Bool.and_eq_true,
        decide_eq_true_eq] at hp
      exact absurd (hp.1 ▸ List.mem_cons_self c cs) hq
    | cons d a' =>
      simp only [List.cons_append, isPrefixList, Bool.and_eq_true] at hp
      have hq' : q ∉ cs := fun hm => hq (List.mem_cons_of_mem c hm)
      simp [isPrefixList, hp.1, ih hq' hp.2]

theorem isSubstr_nil_needle (h : List Char) : isSubstr [] h = true := by
  cases h <;> simp [isSubstr, isPrefixList]

theorem isSubstr_of_tail {n t : List Char} (c : Char)
    (h : isSubstr n t = true) : isSubstr n (c :: t) = true := by
  simp [isSubstr, h]

theorem isSubstr_of_prefixList {n h : List Char}
    (hp : isPrefixList n h = true) : isSubstr n h = true := by
  cases h with
  | nil =>
    cases n with
    | nil => rfl
    | cons c cs => simp [isPrefixList] at hp
  | cons d ds => simp [isSubstr, hp]

theorem isSubstr_self_append (c t : List Char) : isSubstr c (c ++ t) = true :=
  isSubstr_of_prefixList (isPrefixList_append_self c t)

theorem isSubstr_append_right {n b : List Char} (a : List Char)
    (h : isSubstr n b = true) : isSubstr n (a ++ b) = true := by
  induction a with
  | nil => simpa using h
  | cons x a' ih => exact isSubstr_of_tail x ih

theorem isSubstr_append_left {n a : List Char} (b : List Char)
    (h : isSubstr n a = true) : isSubstr n (a ++ b) = true := by
  induction a with
  | nil =>
    have : n = [] := by
      cases n with
      | nil => rfl
      | cons c cs => simp [isSubstr, List.isEmpty] at h
    subst this
    exact isSubstr_nil_needle b
  | cons x a' ih =>
    simp only [isSubstr, Bool.or_eq_true] at h
    rcases h with hp | ht
    · exact isSubstr_of_prefixList (by simpa using isPrefixList_extend b hp)
    · exact isSubstr_of_tail x (ih ht)

theorem isSubstr_length {n h : List Char} (hs : isSubstr n h = true) :
    n.length ≤ h.length := by
  induction h with
  | nil =>
    cases n with
    | nil => simp
    | cons c cs => simp [isSubstr, List.isEmpty] at hs
  | cons d ds ih =>
    simp only [isSubstr, Bool.or_eq_true] at hs
    rcases hs with hp | ht
    · exact isPrefixList_length hp
    · exact Nat.le_succ_of_le (ih ht)

theorem isSubstr_split {q : Char} {n a b : List Char} (hq : q ∉ n)
    (hs : isSubstr n (a ++ q :: b) = true) :
    isSubstr n a = true ∨ isSubstr n b = true := by
  induction a with
  | nil =>
    simp only [List.nil_append, isSubstr, Bool.or_eq_true] at hs
    rcases hs with hp | ht
    · cases n with
      | nil => exact Or.inl (isSubstr_nil_needle [])
      | cons c cs =>
        simp only [isPrefixList, Bool.and_eq_true, decide_eq_true_eq] at hp
        exact absurd (hp.1 ▸ List.mem_cons_self c cs) hq
    · exact Or.inr ht
  | cons x a' ih =>
    simp only [List.cons_append, isSubstr, Bool.or_eq_true] at hs
    rcases hs with hp | ht
    · have hp' : isPrefixList n (x :: a') = true :=
        isPrefixList_split hq (by simpa using hp)
      exact Or.inl (isSubstr_of_prefixList hp')
    · rcases ih ht with h1 | h2
      · exact Or.inl (isSubstr_of_tail x h1)
      · exact Or.inr h2

theorem isSubstr_nil_hay {n : List Char} (h : isSubstr n [] = true) : n = [] := by
  cases n with
  | nil => rfl
  | cons c cs => simp [isSubstr, List.isEmpty] at h

/-! ### Exactness of the containment test on valid identifiers -/

theorem renderItems_cons_head (x : String) (rest : List String) :
    ∃ w, renderItems (x :: rest) = quoteChar :: w := by
  cases rest with
  | nil => exact ⟨_, rfl⟩
  | cons y rest' => exact ⟨_, rfl⟩

theorem isSubstr_renderItems_of_mem {c : String} {l : List String}
    (h : c ∈ l) : isSubstr c.data (renderItems l) = true := by
  induction l with
  | nil => simp at h
  | cons x rest ih =>
    cases rest with
    | nil =>
      have hcx : c = x := by simpa using h
      subst hcx
      exact isSubstr_of_tail quoteChar (isSubstr_self_append c.data [quoteChar])
    | cons y rest' =>
      rcases List.mem_cons.mp h with hcx | hmem
      · subst hcx
        exact isSubstr_of_tail quoteChar (isSubstr_self_append c.data _)
      · have hr := ih hmem
        have h1 : isSubstr c.data
            (quoteChar :: commaChar :: spaceChar :: renderItems (y :: rest')) = true :=
          isSubstr_of_tail _ (isSubstr_of_tail _ (isSubstr_of_tail _ hr))
        have h2 : isSubstr c.data
            (x.data ++ quoteChar :: commaChar :: spaceChar :: renderItems (y :: rest')) = true :=
          isSubstr_append_right x.data h1
        exact isSubstr_of_tail quoteChar h2

theorem not_isSubstr_small {c : String} {h : List Char}
    (hlen : 4 ≤ c.data.length) (hsmall : h.length < 4) :
    ¬ isSubstr c.data h = true := by
  intro hs
  have := isSubstr_length hs
  omega

theorem mem_of_isSubstr_renderItems {c : String} : ∀ {l : List String},
    4 ≤ c.data.length → quoteChar ∉ c.data →
    (∀ x ∈ l, isSubstr c.data x.data = true → c = x) →
    isSubstr c.data (renderItems l) = true → c ∈ l := by
  intro l
  induction l with
  | nil =>
    intro hlen _ _ hs
    exact absurd hs (not_isSubstr_small hlen (by simp [renderItems]))
  | cons x rest ih =>
    intro hlen hq hsub hs
    cases rest with
    | nil =>
      have hs1 : isSubstr c.data ([] ++ quoteChar :: (x.data ++ [quoteChar])) = true := by
        simpa [renderItems] using hs
      rcases isSubstr_split hq hs1 with h0 | h1
      · exact absurd h0 (not_isSubstr_small hlen (by simp))
      · have hs2 : isSubstr c.data (x.data ++ quoteChar :: []) = true := by
          simpa using h1
        rcases isSubstr_split hq hs2 with h2 | h3
        · exact (hsub x (List.mem_singleton.mpr rfl) h2) ▸ List.mem_singleton.mpr rfl
        · exact absurd h3 (not_isSubstr_small hlen (by simp))
    | cons y rest' =>
      have hs1 : isSubstr c.data
          ([] ++ quoteChar ::
            (x.data ++ quoteChar :: commaChar :: spaceChar :: renderItems (y :: rest'))) =
          true := by
        simpa [renderItems] using hs
      rcases isSubstr_split hq hs1 with h0 | h1
      · exact absurd h0 (not_isSubstr_small hlen (by simp))
      · rcases isSubstr_split hq h1 with h2 | h3
        · have hcx : c = x := hsub x (List.mem_cons_self x _) h2
          exact hcx ▸ List.mem_cons_self x _
        · obtain ⟨w, hw⟩ := renderItems_cons_head y rest'
          have h4 : isSubstr c.data
              ([commaChar, spaceChar] ++ quoteChar :: w) = true := by
            simpa [hw] using h3
          rcases isSubstr_split hq h4 with h5 | h6
          · exact absurd h5 (not_isSubstr_small hlen (by simp))
          · have h7 : isSubstr c.data (renderItems (y :: rest')) = true := by
              rw [hw]; exact isSubstr_of_tail quoteChar h6
            have hmem := ih hlen hq
              (fun z hz => hsub z (List.mem_cons_of_mem x hz)) h7
            exact List.mem_cons_of_mem x hmem

theorem pyContains_iff {c : String} {l : List String}
    (hval : ∀ x ∈ l, x ∈ gatherSubsetChoices) (hc : c ∈ gatherSubsetChoices) :
    pyContains c l = true ↔ c ∈ l := by
  have hlen := choices_minlen c hc
  obtain ⟨hq, hlb, hrb⟩ := choices_chars c hc
  constructor
  · intro hs
    have hs1 : isSubstr c.data
        ([] ++ lbrackChar :: (renderItems l ++ [rbrackChar])) = true := by
      simpa [pyContains, renderSubset] using hs
    rcases isSubstr_split hlb hs1 with h0 | h1
    · exact absurd h0 (not_isSubstr_small hlen (by simp))
    · have h1' : isSubstr c.data (renderItems l ++ rbrackChar :: []) = true := by
        simpa using h1
      rcases isSubstr_split hrb h1' with h2 | h3
      · exact mem_of_isSubstr_renderItems hlen hq
          (fun x hx => choices_no_proper_substring c hc x (hval x hx)) h2
      · exact absurd h3 (not_isSubstr_small hlen (by simp))
  · intro hmem
    have h1 := isSubstr_renderItems_of_mem hmem
    have h2 : isSubstr c.data (renderItems l ++ [rbrackChar]) = true :=
      isSubstr_append_left _ h1
    exact isSubstr_of_tail lbrackChar h2

/-! ### The module: parameters, errors, dispatch, aggregation -/

/-- The validated module parameters used by `perform_module_operation`
(after `AnsibleModule` has applied defaults). -/
structure Params where
  gather_subset : List String
  access_zone : String
  include_all_access_zones : Bool
  scope : String
  onefs_host : String

/-- The structured failure produced when a category handler's remote call
raises: the handler formats an error message naming the operation and the
target host and passes it to `fail_json`, aborting the invocation. -/
structure FetchErr where
  category : String
  host : String
  cause : String
  msg : String

/-- The ways an invocation can terminate without a report: an
`AnsibleModule` parameter-validation failure, a plain `fail_json` (the
missing-`gather_subset` check), or a handler fetch failure. -/
inductive ModuleError where
  | validation (msg : String)
  | failJson (msg : String)
  | fetch (e : FetchErr)

/-- The remote collaborator, abstracted: for each category identifier, the
outcome of that category's fetch-and-normalize handler body for the current
invocation — either the normalized value or the underlying error text. -/
structure Env where
  run : String → Except String Value

/-- Error message formats of the per-category handlers, transcribed literally
from the `except` blocks in `plugins/modules/info.py` (including the
missing-space artifacts of adjacent string literals, e.g. `failedwith`).
The `users`/`groups` messages also name the access zone.
Modelled from the spec: the handlers for the last twelve categories
(`nfs_default_settings`, `synciq_global_settings`, `s3_buckets`,
`smb_global_settings`, `ntp_servers`, `email_settings`, `cluster_identity`,
`cluster_owner`, `snmp_settings`, `server_certificate`, `roles`,
`support_assist_settings`) live in shared-library modules outside this file;
for those, per §7 of the spec a FetchError "wraps the category identifier,
the target cluster's host identity, and the underlying cause message". -/
def errMsg (c host az cause : String) : String :=
  if c = "attributes" then
    "Get Attributes List for PowerScale cluster: " ++ host ++ " failed with error: " ++ cause
  else if c = "access_zones" then
    "Get Access zone List for PowerScale cluster: " ++ host ++ " failedwith error: " ++ cause
  else if c = "nodes" then
    "Get Nodes List for PowerScale cluster: " ++ host ++ " failed witherror: " ++ cause
  else if c = "providers" then
    "Get authentication Providers List for PowerScale cluster: " ++ host ++ " failed with error: " ++ cause
  else if c = "users" then
    "Get Users List for PowerScale cluster: " ++ host ++ " and access zone: " ++ az ++ " failed with error: " ++ cause
  else if c = "groups" then
    "Get Group List for PowerScale cluster: " ++ host ++ " andaccess zone: " ++ az ++ " failed with error: " ++ cause
  else if c = "smb_shares" then
    "Get smb_shares list for PowerScale cluster: " ++ host ++ " failed witherror: " ++ cause
  else if c = "clients" then
    "Get active clients list for PowerScale cluster: " ++ host ++ " failed witherror: " ++ cause
  else if c = "nfs_exports" then
    "Get nfs_exports list for PowerScale cluster: " ++ host ++ " failed witherror: " ++ cause
  else if c = "nfs_aliases" then
    "Getting list of NFS aliases for PowerScale: " ++ host ++ " failed with error: " ++ cause
  else if c = "synciq_reports" then
    "Get SyncIQ Report list for PowerScale cluster: " ++ host ++ " failed witherror: " ++ cause
  else if c = "synciq_target_reports" then
    "Get SyncIQ Target Report list for PowerScale cluster: " ++ host ++ " failed witherror: " ++ cause
  else if c = "synciq_policies" then
    "Get list of SyncIQ Policies for PowerScale: " ++ host ++ " failed witherror: " ++ cause
  else if c = "synciq_target_cluster_certificates" then
    "Get list of SyncIQ target cluster certificates for PowerScale: " ++ host ++ " failed witherror: " ++ cause
  else if c = "synciq_performance_rules" then
    "Get SyncIQ performance rules list for PowerScale cluster: " ++ host ++ " failed witherror: " ++ cause
  else if c = "network_groupnets" then
    "Getting list of network groupnets for PowerScale: " ++ host ++ " failed with error: " ++ cause
  else if c = "network_pools" then
    "Getting list of network pools for PowerScale: " ++ host ++ " failed with error: " ++ cause
  else if c = "network_rules" then
    "Getting list of network rules for PowerScale: " ++ host ++ " failed with error: " ++ cause
  else if c = "network_interfaces" then
    "Getting list of network interfaces for PowerScale: " ++ host ++ " failed with error: " ++ cause
  else if c = "network_subnets" then
    "Getting list of network subnets for PowerScale: " ++ host ++ " failed with error: " ++ cause
  else if c = "node_pools" then
    "Getting list of node pools for PowerScale: " ++ host ++ " failed with error: " ++ cause
  else if c = "storagepool_tiers" then
    "Getting list of storagepool tiers for PowerScale: " ++ host ++ " failed with error: " ++ cause
  else if c = "smb_files" then
    "Getting list of smb open files for PowerScale: " ++ host ++ " failed with error: " ++ cause
  else if c = "user_mapping_rules" then
    "Getting list of user mapping rules for PowerScale: " ++ host ++ " failed with error: " ++ cause
  else if c = "ldap" then
    "Getting list of ldap providers for PowerScale: " ++ host ++ " failed with error: " ++ cause
  else if c = "nfs_zone_settings" then
    "Getting zone settings for PowerScale: " ++ host ++ " failed with error: " ++ cause
  else if c = "nfs_global_settings" then
    "Getting NFS global settings for PowerScale: " ++ host ++ " failed with error: " ++ cause
  else
    "Fetching " ++ c ++ " for PowerScale cluster: " ++ host ++ " failed with error: " ++ cause

/-- Build the structured fetch failure for category `c`. -/
def mkFetchErr (c host az cause : String) : FetchErr :=
  { category := c, host := host, cause := cause, msg := errMsg c host az cause }

/-- The dispatch chain of `perform_module_operation`: walk the categories in
the fixed chain order; a category whose identifier occurs in `str(subset)` has
its handler invoked; a handler error aborts everything (`fail_json`).
Returns the list of invoked categories (the handler trace, in invocation
order) and either the accumulated per-category results or the error. -/
def runCats (env : Env) (p : Params) :
    List String → List String × Except ModuleError (List (String × Value))
  | [] => ([], Except.ok [])
  | c :: rest =>
    if pyContains c p.gather_subset then
      match env.run c with
      | Except.error e =>
          ([c], Except.error (ModuleError.fetch
            (mkFetchErr c p.onefs_host p.access_zone e)))
      | Except.ok v =>
          let r := runCats env p rest
          (c :: r.1,
           match r.2 with
           | Except.ok xs => Except.ok ((c, v) :: xs)
           | Except.error er => Except.error er)
    else runCats env p rest

/-- The categories in the order their keys appear in the final result
dictionary (`result = dict(...)` followed by
`result.update(SynciqTargetClusterCertificate=...)`). -/
def reportOrder : List String :=
  ["attributes", "access_zones", "nodes", "providers", "users", "groups",
   "smb_shares", "clients", "nfs_exports", "nfs_aliases", "synciq_reports",
   "synciq_target_reports", "synciq_policies", "synciq_performance_rules",
   "network_groupnets", "network_pools", "network_rules",
   "network_interfaces", "network_subnets", "node_pools",
   "storagepool_tiers", "smb_files", "user_mapping_rules", "ldap",
   "nfs_zone_settings", "nfs_default_settings", "nfs_global_settings",
   "synciq_global_settings", "s3_buckets", "smb_global_settings",
   "ntp_servers", "email_settings", "cluster_identity", "cluster_owner",
   "snmp_settings", "server_certificate", "roles",
   "support_assist_settings", "synciq_target_cluster_certificates"]

/-- The top-level result key for each category, from the `result = dict(...)`
construction. -/
def reportKeyOf (c : String) : String :=
  if c = "attributes" then "Attributes"
  else if c = "access_zones" then "AccessZones"
  else if c = "nodes" then "Nodes"
  else if c = "providers" then "Providers"
  else if c = "users" then "Users"
  else if c = "groups" then "Groups"
  else if c = "smb_shares" then "SmbShares"
  else if c = "clients" then "Clients"
  else if c = "nfs_exports" then "NfsExports"
  else if c = "nfs_aliases" then "NfsAliases"
  else if c = "synciq_reports" then "SynciqReports"
  else if c = "synciq_target_reports" then "SynciqTargetReports"
  else if c = "synciq_policies" then "SynciqPolicies"
  else if c = "synciq_performance_rules" then "SynciqPerformanceRules"
  else if c = "network_groupnets" then "NetworkGroupnets"
  else if c = "network_pools" then "NetworkPools"
  else if c = "network_rules" then "NetworkRules"
  else if c = "network_interfaces" then "NetworkInterfaces"
  else if c = "network_subnets" then "NetworkSubnets"
  else if c = "node_pools" then "NodePools"
  else if c = "storagepool_tiers" then "StoragePoolTiers"
  else if c = "smb_files" then "SmbOpenFiles"
  else if c = "user_mapping_rules" then "UserMappingRules"
  else if c = "ldap" then "LdapProviders"
  else if c = "nfs_zone_settings" then "NfsZoneSettings"
  else if c = "nfs_default_settings" then "NfsDefaultSettings"
  else if c = "nfs_global_settings" then "NfsGlobalSettings"
  else if c = "synciq_global_settings" then "SynciqGlobalSettings"
  else if c = "s3_buckets" then "s3Buckets"
  else if c = "smb_global_settings" then "SmbGlobalSettings"
  else if c = "ntp_servers" then "NTPServers"
  else if c = "email_settings" then "EmailSettings"
  else if c = "cluster_identity" then "ClusterIdentity"
  else if c = "cluster_owner" then "ClusterOwner"
  else if c = "snmp_settings" then "SnmpSettings"
  else if c = "server_certificate" then "ServerCertificate"
  else if c = "roles" then "roles"
  else if c = "support_assist_settings" then "support_assist_settings"
  else if c = "synciq_target_cluster_certificates" then "SynciqTargetClusterCertificate"
  else c

/-- The declared empty default of each category: the initial value of the
corresponding accumulator variable in `perform_module_operation` (an empty
list for list-typed categories, an empty dictionary for settings-typed
ones). -/
def defaultOf (c : String) : Value :=
  if c = "nfs_zone_settings" then Value.vdict []
  else if c = "nfs_default_settings" then Value.vdict []
  else if c = "nfs_global_settings" then Value.vdict []
  else if c = "synciq_global_settings" then Value.vdict []
  else if c = "s3_buckets" then Value.vdict []
  else if c = "smb_global_settings" then Value.vdict []
  else if c = "ntp_servers" then Value.vdict []
  else if c = "email_settings" then Value.vdict []
  else if c = "cluster_identity" then Value.vdict []
  else if c = "cluster_owner" then Value.vdict []
  else if c = "snmp_settings" then Value.vdict []
  else if c = "roles" then Value.vdict []
  else if c = "support_assist_settings" then Value.vdict []
  else Value.vlist []

/-- Assemble the final result dictionary: every category key is present; a
category that was computed during dispatch contributes its handler value,
any other category contributes its declared empty default. -/
def buildReport (computed : List (String × Value)) : List (String × Value) :=
  reportOrder.map (fun c => (reportKeyOf c, (dget computed c).getD (defaultOf c)))

/-- `Info.perform_module_operation`: check `gather_subset` is non-empty, run
the dispatch chain, and on success assemble the full report.  The first
component is the handler invocation trace, the second the outcome. -/
def perform_module_operation (env : Env) (p : Params) :
    List String × Except ModuleError (List (String × Value)) :=
  if p.gather_subset.isEmpty then
    ([], Except.error (ModuleError.failJson "Please specify gather_subset"))
  else
    let r := runCats env p dispatchOrder
    (r.1,
     match r.2 with
     | Except.ok computed => Except.ok (buildReport computed)
     | Except.error e => Except.error e)

/-- The raw caller-supplied arguments, before `AnsibleModule` validation
(`none` = parameter not supplied). -/
structure RawParams where
  gather_subset : Option (List String)
  access_zone : Option String
  include_all_access_zones : Option Bool
  scope : Option String
  onefs_host : String

/-- Modelled from the spec: argument validation is performed by the external
`AnsibleModule` framework against the argument spec declared in
`Info.__init__` and `get_info_parameters` —
`mutually_exclusive=[['access_zone', 'include_all_access_zones']]` (an error
whenever both are supplied), `gather_subset` required with the 39 enumerated
choices, `scope` restricted to its three choices, and defaults
`access_zone="System"`, `scope="effective"` applied afterwards. -/
def validate (raw : RawParams) : Except String Params :=
  if raw.access_zone.isSome && raw.include_all_access_zones.isSome then
    Except.error "parameters are mutually exclusive: access_zone|include_all_access_zones"
  else
    match raw.gather_subset with
    | none => Except.error "missing required arguments: gather_subset"
    | some subset =>
      if subset.all (fun x => gatherSubsetChoices.contains x) then
        if (raw.scope.getD "effective") ∈ ["effective", "user", "default"] then
          Except.ok
            { gather_subset := subset,
              access_zone := raw.access_zone.getD "System",
              include_all_access_zones := raw.include_all_access_zones.getD false,
              scope := raw.scope.getD "effective",
              onefs_host := raw.onefs_host }
        else Except.error "value of scope must be one of: effective, user, default"
      else Except.error "value of gather_subset must be one or more of the declared choices"

/-- A whole invocation: `AnsibleModule` validation, then
`perform_module_operation`.  A validation failure terminates before any
handler is invoked (empty trace). -/
def runModule (env : Env) (raw : RawParams) :
    List String × Except ModuleError (List (String × Value)) :=
  match validate raw with
  | Except.error m => ([], Except.error (ModuleError.validation m))
  | Except.ok p => perform_module_operation env p

/-! ### Dispatch and aggregation lemmas -/

theorem report_sub_dispatch : ∀ c ∈ reportOrder, c ∈ dispatchOrder := by decide

theorem reportKey_inj : ∀ a ∈ reportOrder, ∀ b ∈ reportOrder,
    reportKeyOf a = reportKeyOf b → a = b := by decide

theorem runCats_ok (env : Env) (p : Params) (f : String → Value) :
    ∀ order : List String,
    (∀ c ∈ order, pyContains c p.gather_subset = true → env.run c = Except.ok (f c)) →
    runCats env p order =
      (order.filter (fun c => pyContains c p.gather_subset),
       Except.ok ((order.filter (fun c => pyContains c p.gather_subset)).map
         (fun c => (c, f c)))) := by
  intro order
  induction order with
  | nil => intro _; rfl
  | cons c rest ih =>
    intro hf
    by_cases hP : pyContains c p.gather_subset = true
    · have hrun := hf c (List.mem_cons_self c rest) hP
      have ihr := ih (fun d hd hPd => hf d (List.mem_cons_of_mem c hd) hPd)
      simp [runCats, hP, hrun, ihr, List.filter_cons]
    · have hP' : pyContains c p.gather_subset = false := by
        simpa using hP
      have ihr := ih (fun d hd hPd => hf d (List.mem_cons_of_mem c hd) hPd)
      simp [runCats, hP', ihr, List.filter_cons]

theorem dget_filter_map_of_not_mem (f : String → Value) (P : String → Bool)
    (c : String) :
    ∀ order : List String, c ∉ order →
    dget ((order.filter P).map (fun a => (a, f a))) c = none := by
  intro order
  induction order with
  | nil => intro _; rfl
  | cons a rest ih =>
    intro hc
    have hca : c ≠ a := fun h => hc (h ▸ List.mem_cons_self a rest)
    have hcr : c ∉ rest := fun h => hc (List.mem_cons_of_mem a h)
    by_cases hP : P a = true
    · simp [List.filter_cons, hP, dget, Ne.symm hca, ih hcr]
    · have hP' : P a = false := by simpa using hP
      simp [List.filter_cons, hP', ih hcr]

theorem dget_filter_map (f : String → Value) (P : String → Bool) (c : String) :
    ∀ order : List String, order.Nodup → c ∈ order →
    dget ((order.filter P).map (fun a => (a, f a))) c =
      if P c then some (f c) else none := by
  intro order
  induction order with
  | nil => intro _ hc; simp at hc
  | cons a rest ih =>
    intro hnd hc
    have hnd' := List.nodup_cons.mp hnd
    rcases List.mem_cons.mp hc with hca | hcr
    · subst hca
      by_cases hP : P c = true
      · simp [List.filter_cons, hP, dget,
          dget_filter_map_of_not_mem f P c rest hnd'.1]
      · have hP' : P c = false := by simpa using hP
        simp [List.filter_cons, hP',
          dget_filter_map_of_not_mem f P c rest hnd'.1]
    · have hca : c ≠ a := fun h => hnd'.1 (h ▸ hcr)
      by_cases hP : P a = true
      · simp [List.filter_cons, hP, dget, Ne.symm hca, ih hnd'.2 hcr]
      · have hP' : P a = false := by simpa using hP
        simp [List.filter_cons, hP', ih hnd'.2 hcr]

theorem dget_map_key (k : String → String) (g : String → Value) :
    ∀ (order : List String) (c : String), c ∈ order →
    (∀ a ∈ order, k a = k c → a = c) →
    dget (order.map (fun a => (k a, g a))) (k c) = some (g c) := by
  intro order
  induction order with
  | nil => intro c hc; simp at hc
  | cons a rest ih =>
    intro c hc hinj
    by_cases hak : k a = k c
    · have ha : a = c := hinj a (List.mem_cons_self a rest) hak
      subst ha
      simp [dget]
    · have hcr : c ∈ rest := by
        rcases List.mem_cons.mp hc with h | h
        · exact absurd (h ▸ rfl) hak
        · exact h
      simp [dget, hak, ih c hcr (fun b hb => hinj b (List.mem_cons_of_mem a hb))]

theorem runCats_error_aux (env : Env) (p : Params) (c : String) (e : String)
    (hrun : env.run c = Except.error e)
    (hcP : pyContains c p.gather_subset = true) :
    ∀ pre post : List String,
    (∀ d ∈ pre, pyContains d p.gather_subset = true → ∃ v, env.run d = Except.ok v) →
    (runCats env p (pre ++ c :: post)).2 =
      Except.error (ModuleError.fetch (mkFetchErr c p.onefs_host p.access_zone e))
    ∧ ∀ d ∈ (runCats env p (pre ++ c :: post)).1, d ∈ pre ∨ d = c := by
  intro pre
  induction pre with
  | nil =>
    intro post _
    constructor
    · simp [runCats, hcP, hrun]
    · intro d hd
      simp [runCats, hcP, hrun] at hd
      exact Or.inr hd
  | cons d0 pre' ih =>
    intro post hpre
    have hpre' : ∀ d ∈ pre', pyContains d p.gather_subset = true →
        ∃ v, env.run d = Except.ok v :=
      fun d hd => hpre d (List.mem_cons_of_mem d0 hd)
    have ihr := ih post hpre'
    by_cases hP0 : pyContains d0 p.gather_subset = true
    · obtain ⟨v, hv⟩ := hpre d0 (List.mem_cons_self d0 pre') hP0
      constructor
      · simp only [List.cons_append, runCats, hP0, if_pos, hv]
        simp [ihr.1]
      · intro d hd
        simp only [List.cons_append, runCats, hP0, if_pos, hv] at hd
        rcases List.mem_cons.mp hd with h | h
        · exact Or.inl (h ▸ List.mem_cons_self d0 pre')
        · rcases ihr.2 d h with h' | h'
          · exact Or.inl (List.mem_cons_of_mem d0 h')
          · exact Or.inr h'
    · have hP0' : pyContains d0 p.gather_subset = false := by simpa using hP0
      constructor
      · simpa [runCats, hP0'] using ihr.1
      · intro d hd
        simp only [List.cons_append, runCats, hP0', Bool.false_eq_true,
          if_neg, not_false_eq_true] at hd
        rcases ihr.2 d hd with h' | h'
        · exact Or.inl (List.mem_cons_of_mem d0 h')
        · exact Or.inr h'

theorem runCats_trace_requested (env : Env) (p : Params) :
    ∀ (order : List String) (d : String), d ∈ (runCats env p order).1 →
    pyContains d p.gather_subset = true := by
  intro order
  induction order with
  | nil => intro d hd; simp [runCats] at hd
  | cons c rest ih =>
    intro d hd
    by_cases hP : pyContains c p.gather_subset = true
    · cases hrun : env.run c with
      | error e =>
        simp [runCats, hP, hrun] at hd
        exact hd ▸ hP
      | ok v =>
        simp only [runCats, hP, if_pos, hrun] at hd
        rcases List.mem_cons.mp hd with h | h
        · exact h ▸ hP
        · exact ih d h
    · have hP' : pyContains c p.gather_subset = false := by simpa using hP
      rw [runCats, hP'] at hd
      · exact ih d (by simpa using hd)

theorem runCats_congr (env : Env) (s₁ s₂ : List String) (az : String)
    (ia : Bool) (sc : String) (host : String) :
    ∀ order : List String,
    (∀ c ∈ order, pyContains c s₁ = pyContains c s₂) →
    runCats env ⟨s₁, az, ia, sc, host⟩ order =
      runCats env ⟨s₂, az, ia, sc, host⟩ order := by
  intro order
  induction order with
  | nil => intro _; rfl
  | cons c rest ih =>
    intro h
    have hc := h c (List.mem_cons_self c rest)
    have ihr := ih (fun d hd => h d (List.mem_cons_of_mem c hd))
    by_cases hP : pyContains c s₁ = true
    · cases hrun : env.run c with
      | error e => simp [runCats, hP, hc ▸ hP, hrun]
      | ok v => simp [runCats, hP, hc ▸ hP, hrun, ihr]
    · have hP' : pyContains c s₁ = false := by simpa using hP
      simp [runCats, hP', hc ▸ hP', ihr]

/-! ### Performance-rule limit normalization (`get_sync_rule_limit_unit`) -/

/-- The unit determined by a performance-rule type: the `if`/`elif` chain of
`get_sync_rule_limit_unit`.  A type outside the four branches leaves the
local `unit` variable unassigned, so the subsequent `str(limit) + unit`
raises — modelled as `none`. -/
def syncRuleUnit (t : String) : Option String :=
  if t = "bandwidth" then some "kb/s"
  else if t = "cpu" then some "%"
  else if t = "file_count" then some "files/sec"
  else if t = "worker" then some "%"
  else none

/-- `get_sync_rule_limit_unit(limit, type)`: `str(limit) + unit`. -/
def get_sync_rule_limit_unit (limit : Int) (t : String) : Option String :=
  (syncRuleUnit t).map (fun u => toString limit ++ u)

/-- A SyncIQ performance rule as delivered by `list_sync_rules().to_dict()`
(the fields read by `get_synciq_performance_rules`). -/
structure SyncRule where
  id : String
  schedule : String
  enabled : Bool
  type : String
  limit : Int

/-- The normalization loop of `Info.get_synciq_performance_rules`: one
projected dictionary per rule, with the `limit` field annotated by
`get_sync_rule_limit_unit`; a rule whose type has no unit makes the handler
fail (`none`). -/
def get_synciq_performance_rules (rules : List SyncRule) : Option (List Dict) :=
  rules.mapM (fun r =>
    (get_sync_rule_limit_unit r.limit r.type).map (fun lim =>
      [("id", Value.vstr r.id), ("schedule", Value.vstr r.schedule),
       ("enabled", Value.vbool r.enabled), ("type", Value.vstr r.type),
       ("limit", Value.vstr lim)]))

/-! ### User-mapping rule normalization (`get_user_mapping_rules`) -/

/-- The `for count, rule in enumerate(rules)` loop: each rule receives
`rule['apply_order'] = count + 1` and is appended in source order. -/
def annotateRules (i : Nat) : List Dict → List Dict
  | [] => []
  | r :: rest =>
      dictSet r "apply_order" (Value.vint (Int.ofNat (i + 1))) :: annotateRules (i + 1) rest

/-- `Info.get_user_mapping_rules`, applied to the rule list extracted from
`get_mapping_users_rules(zone).to_dict()['rules']['rules']`. -/
def get_user_mapping_rules (rules : List Dict) : List Dict :=
  annotateRules 0 rules

/-! ### Handlers with absent substructure (`smb_shares`, `nfs_aliases`,
`network_interfaces`) -/

/-- The normalization body of `Info.get_smb_shares_list`, applied to the
response dictionary of `list_smb_shares(zone).to_dict()`: a missing
`'shares'` key raises `KeyError` (caught and turned into a module failure);
a falsy `'shares'` value skips the projection loop, returning the empty
accumulator; otherwise each share is projected to its `id` and `name`. -/
def get_smb_shares_list (resp : Dict) : Except String Value :=
  match dget resp "shares" with
  | none => Except.error "KeyError: shares"
  | some shares =>
    if pyTruthy shares then
      match shares with
      | Value.vlist xs =>
        (xs.mapM (fun share =>
          match share with
          | Value.vdict d =>
            match dget d "id", dget d "name" with
            | some i, some n => Except.ok (Value.vdict [("id", i), ("name", n)])
            | _, _ => Except.error "KeyError: share field"
          | _ => Except.error "TypeError: share is not a dict")).map Value.vlist
      | _ => Except.error "TypeError: shares is not iterable"
    else Except.ok (Value.vlist [])

/-- The normalization body of `Info.get_nfs_aliases_list`: the handler
returns `nfs_aliases_details["aliases"]` unchanged, so a present-but-`None`
field is passed through and only a missing key raises. -/
def get_nfs_aliases_list (resp : Dict) : Except String Value :=
  match dget resp "aliases" with
  | none => Except.error "KeyError: aliases"
  | some v => Except.ok v

/-- The normalization body of `Info.get_network_interfaces`: returns
`network_interfaces_details['interfaces']` unchanged. -/
def get_network_interfaces (resp : Dict) : Except String Value :=
  match dget resp "interfaces" with
  | none => Except.error "KeyError: interfaces"
  | some v => Except.ok v

/-! ### Dictionary-assignment lemmas -/

theorem dget_overwrite_self (k : String) (v : Value) :
    ∀ d : Dict, (dget d k).isSome = true →
    dget (d.map (fun p => if p.1 = k then (k, v) else p)) k = some v := by
  intro d
  induction d with
  | nil => intro h; simp [dget] at h
  | cons p rest ih =>
    intro h
    by_cases hp : p.1 = k
    · simp [dget, hp]
    · rw [dget, if_neg hp] at h
      simp [dget, hp, ih h]

theorem dget_append_single (k : String) (v : Value) :
    ∀ d : Dict, dget d k = none → dget (d ++ [(k, v)]) k = some v := by
  intro d
  induction d with
  | nil => intro _; simp [dget]
  | cons p rest ih =>
    intro h
    by_cases hp : p.1 = k
    · simp [dget, hp] at h
    · rw [dget, if_neg hp] at h
      simp [dget, hp, ih h]

theorem dget_dictSet_self (d : Dict) (k : String) (v : Value) :
    dget (dictSet d k v) k = some v := by
  by_cases h : (dget d k).isSome = true
  · simp [dictSet, h, dget_overwrite_self k v d h]
  · have h' : dget d k = none := by
      cases hd : dget d k with
      | none => rfl
      | some w => simp [hd] at h
    simp [dictSet, h', dget_append_single k v d h']

theorem dget_overwrite_other (k k' : String) (v : Value) (hne : k' ≠ k) :
    ∀ d : Dict,
    dget (d.map (fun p => if p.1 = k then (k, v) else p)) k' = dget d k' := by
  intro d
  induction d with
  | nil => rfl
  | cons p rest ih =>
    by_cases hp : p.1 = k
    · simp [dget, hp, Ne.symm hne, ih]
    · simp only [List.map_cons, if_neg hp, dget]
      by_cases hp' : p.1 = k'
      · simp [hp']
      · simp [hp', ih]

theorem dget_append_single_other (k k' : String) (v : Value) (hne : k' ≠ k) :
    ∀ d : Dict, dget (d ++ [(k, v)]) k' = dget d k' := by
  intro d
  induction d with
  | nil => simp [dget, Ne.symm hne]
  | cons p rest ih =>
    by_cases hp' : p.1 = k'
    · simp [dget, hp']
    · simp [dget, hp', ih]

theorem dget_dictSet_other (d : Dict) (k k' : String) (v : Value)
    (hne : k' ≠ k) : dget (dictSet d k v) k' = dget d k' := by
  by_cases h : (dget d k).isSome = true
  · simp [dictSet, h, dget_overwrite_other k k' v hne d]
  · have h' : (dget d k).isSome = false := by simpa using h
    simp [dictSet, h', dget_append_single_other k k' v hne d]

/-! ### Annotation-loop lemmas -/

theorem annotateRules_length : ∀ (l : List Dict) (i : Nat),
    (annotateRules i l).length = l.length := by
  intro l
  induction l with
  | nil => intro i; rfl
  | cons r rest ih => intro i; simp [annotateRules, ih]

theorem annotateRules_getD : ∀ (l : List Dict) (i j : Nat), j < l.length →
    (annotateRules i l).getD j [] =
      dictSet (l.getD j []) "apply_order" (Value.vint (Int.ofNat (i + j + 1))) := by
  intro l
  induction l with
  | nil => intro i j hj; simp at hj
  | cons r rest ih =>
    intro i j hj
    cases j with
    | zero => simp [annotateRules]
    | succ j' =>
      have hj' : j' < rest.length := by simpa using hj
      have := ih (i + 1) j' hj'
      simp only [annotateRules, List.getD_cons_succ, this]
      have harg : i + 1 + j' + 1 = i + (j' + 1) + 1 := by omega
      rw [harg]

theorem annotateRules_map_applyOrder : ∀ (l : List Dict) (i : Nat),
    (annotateRules i l).map (fun d => dget d "apply_order") =
      (List.range' (i + 1) l.length).map (fun n => some (Value.vint (Int.ofNat n))) := by
  intro l
  induction l with
  | nil => intro i; rfl
  | cons r rest ih =>
    intro i
    simp only [annotateRules, List.map_cons, List.length_cons, List.range'_succ,
      dget_dictSet_self, ih (i + 1)]

/-! ### Claim theorems -/

/-- C9: for every list whose elements are drawn from the 39 valid category
identifiers and every valid identifier `c`, the dispatch test
`'c' in str(subset)` holds exactly when `c` is an element of the list — no
valid identifier is a substring of another and the rendering cannot create a
match spanning element boundaries, so containment-based dispatch is
extensionally exact set membership on valid inputs. -/
theorem claim_C9_containment_is_membership (l : List String) (c : String)
    (hl : ∀ x ∈ l, x ∈ gatherSubsetChoices) (hc : c ∈ gatherSubsetChoices) :
    pyContains c l = true ↔ c ∈ l :=
  pyContains_iff hl hc

/-- C9 witness: the equivalence instantiated at concrete valid inputs, one
contained and one not. -/
theorem claim_C9_containment_is_membership_check :
    ("nodes" ∈ gatherSubsetChoices)
    ∧ (pyContains "nodes" ["users", "nodes"] = true ↔ "nodes" ∈ ["users", "nodes"])
    ∧ (pyContains "smb_shares" ["users", "nodes"] = true ↔
        "smb_shares" ∈ ["users", "nodes"]) :=
  ⟨by decide,
   claim_C9_containment_is_membership ["users", "nodes"] "nodes" (by decide) (by decide),
   claim_C9_containment_is_membership ["users", "nodes"] "smb_shares" (by decide) (by decide)⟩

/-- C4: for every numeric limit `L`, the normalized limit is the literal
concatenation of `str(L)` with the unit determined by the rule type —
`bandwidth → "kb/s"`, `cpu → "%"`, `file_count → "files/sec"`,
`worker → "%"` — with the spec's three concrete examples, and the
performance-rule handler stores exactly this annotated string in the
`limit` field of each normalized rule. -/
theorem claim_C4_limit_unit_normalization :
    (∀ L : Int, get_sync_rule_limit_unit L "bandwidth" = some (toString L ++ "kb/s"))
    ∧ (∀ L : Int, get_sync_rule_limit_unit L "cpu" = some (toString L ++ "%"))
    ∧ (∀ L : Int, get_sync_rule_limit_unit L "file_count" = some (toString L ++ "files/sec"))
    ∧ (∀ L : Int, get_sync_rule_limit_unit L "worker" = some (toString L ++ "%"))
    ∧ get_sync_rule_limit_unit 10 "bandwidth" = some "10kb/s"
    ∧ get_sync_rule_limit_unit 5 "cpu" = some "5%"
    ∧ get_sync_rule_limit_unit 3 "file_count" = some "3files/sec"
    ∧ (∀ r : SyncRule, get_synciq_performance_rules [r] =
        (get_sync_rule_limit_unit r.limit r.type).map (fun lim =>
          [[("id", Value.vstr r.id), ("schedule", Value.vstr r.schedule),
            ("enabled", Value.vbool r.enabled), ("type", Value.vstr r.type),
            ("limit", Value.vstr lim)]])) := by
  refine ⟨fun L => rfl, fun L => rfl, fun L => rfl, fun L => rfl, rfl, rfl, rfl, ?_⟩
  intro r
  cases h : get_sync_rule_limit_unit r.limit r.type with
  | none => simp [get_synciq_performance_rules, List.mapM, List.mapM.loop, h]
  | some lim => simp [get_synciq_performance_rules, List.mapM, List.mapM.loop, h]

/-- C10: `get_sync_rule_limit_unit` is total exactly on the four declared
rule types; any other type leaves the unit unassigned and the call fails. -/
theorem claim_C10_limit_unit_totality :
    (∀ (L : Int) (T : String),
        T ∉ (["bandwidth", "cpu", "file_count", "worker"] : List String) →
        get_sync_rule_limit_unit L T = none)
    ∧ (∀ (L : Int) (T : String),
        T ∈ (["bandwidth", "cpu", "file_count", "worker"] : List String) →
        (get_sync_rule_limit_unit L T).isSome = true) := by
  constructor
  · intro L T h
    simp only [List.mem_cons, List.mem_singleton, not_or] at h
    obtain ⟨h1, h2, h3, h4⟩ := h
    simp [get_sync_rule_limit_unit, syncRuleUnit, h1, h2, h3, h4]
  · intro L T h
    simp only [List.mem_cons, List.not_mem_nil, or_false] at h
    rcases h with rfl | rfl | rfl | rfl
    · rfl
    · rfl
    · rfl
    · rfl

/-- C10 witness: a type outside the four fails, one inside succeeds. -/
theorem claim_C10_limit_unit_totality_check :
    get_sync_rule_limit_unit 7 "evict" = none
    ∧ (get_sync_rule_limit_unit 7 "worker").isSome = true :=
  ⟨claim_C10_limit_unit_totality.1 7 "evict" (by decide),
   claim_C10_limit_unit_totality.2 7 "worker" (by decide)⟩

/-- C5: user-mapping rule normalization preserves source order and annotates
the rule at 0-based position `j` with `apply_order = j + 1` (leaving every
other key unchanged), so the `apply_order` values over the whole output are
exactly `1, 2, ..., n` in order. -/
theorem claim_C5_apply_order (rules : List Dict) :
    (get_user_mapping_rules rules).length = rules.length
    ∧ (∀ j, j < rules.length →
        dget ((get_user_mapping_rules rules).getD j []) "apply_order" =
          some (Value.vint (Int.ofNat (j + 1))))
    ∧ (∀ j, j < rules.length → ∀ k, k ≠ "apply_order" →
        dget ((get_user_mapping_rules rules).getD j []) k =
          dget (rules.getD j []) k)
    ∧ (get_user_mapping_rules rules).map (fun d => dget d "apply_order") =
        (List.range rules.length).map (fun j => some (Value.vint (Int.ofNat (j + 1)))) := by
  refine ⟨annotateRules_length rules 0, ?_, ?_, ?_⟩
  · intro j hj
    rw [get_user_mapping_rules, annotateRules_getD rules 0 j hj,
      dget_dictSet_self]
    rw [Nat.zero_add]
  · intro j hj k hk
    rw [get_user_mapping_rules, annotateRules_getD rules 0 j hj,
      dget_dictSet_other _ _ _ _ hk]
  · rw [get_user_mapping_rules, annotateRules_map_applyOrder rules 0,
      Nat.zero_add, List.range'_eq_map_range, List.map_map]
    apply List.map_congr_left
    intro a _
    simp [Nat.add_comm]

/-- A concrete three-rule input for the C5 witness. -/
def umrExample : List Dict :=
  [[("operator", Value.vstr "insert")], [], [("options", Value.vnull)]]

/-- C5 witness: three input rules receive `apply_order` 1, 2, 3 in source
order, other keys untouched. -/
theorem claim_C5_apply_order_check :
    (get_user_mapping_rules umrExample).length = umrExample.length
    ∧ dget ((get_user_mapping_rules umrExample).getD 2 []) "apply_order" =
        some (Value.vint (Int.ofNat 3))
    ∧ dget ((get_user_mapping_rules umrExample).getD 0 []) "operator" =
        dget (umrExample.getD 0 []) "operator"
    ∧ (get_user_mapping_rules umrExample).map (fun d => dget d "apply_order") =
        (List.range umrExample.length).map (fun j => some (Value.vint (Int.ofNat (j + 1)))) :=
  ⟨(claim_C5_apply_order umrExample).1,
   (claim_C5_apply_order umrExample).2.1 2 (by decide),
   (claim_C5_apply_order umrExample).2.2.1 0 (by decide) "operator" (by decide),
   (claim_C5_apply_order umrExample).2.2.2⟩

/-- C6 counterexample: the `nfs_aliases` handler passes
`details["aliases"]` through unchanged, so a well-formed response whose
alias sub-list is `None` yields `None`, not the category's declared empty
default — refuting the claim that every handler returns the empty default
when the expected substructure is absent. -/
theorem claim_C6_default_counterexample :
    get_nfs_aliases_list [("aliases", Value.vnull)] = Except.ok Value.vnull
    ∧ get_nfs_aliases_list [("aliases", Value.vnull)] ≠
        Except.ok (defaultOf "nfs_aliases") := by
  constructor
  · rfl
  · intro h
    have h' : Value.vnull = defaultOf "nfs_aliases" := by
      have := h
      rw [show get_nfs_aliases_list [("aliases", Value.vnull)] =
        Except.ok Value.vnull from rfl] at this
      exact Except.ok.inj this
    rw [show defaultOf "nfs_aliases" = Value.vlist [] from rfl] at h'
    exact Value.noConfusion h'

/-- C6 (amended): handlers that guard the sub-list with a truthiness check
(e.g. `smb_shares`) return the declared empty default when the sub-list is
present but falsy; pass-through handlers (`nfs_aliases`,
`network_interfaces`) return the raw field value unchanged (so `None` stays
`None`); and a missing expected key makes the handler fail with a fetch
error rather than return a default. -/
theorem claim_C6_absent_substructure :
    (∀ (resp : Dict) (v : Value), dget resp "shares" = some v →
        pyTruthy v = false → get_smb_shares_list resp = Except.ok (Value.vlist []))
    ∧ (∀ (resp : Dict) (v : Value), dget resp "aliases" = some v →
        get_nfs_aliases_list resp = Except.ok v)
    ∧ (∀ resp : Dict, dget resp "interfaces" = none →
        get_network_interfaces resp = Except.error "KeyError: interfaces") := by
  refine ⟨?_, ?_, ?_⟩
  · intro resp v h ht
    simp [get_smb_shares_list, h, ht]
  · intro resp v h
    simp [get_nfs_aliases_list, h]
  · intro resp h
    simp [get_network_interfaces, h]

/-- C6 amended-claim witness: concrete falsy/missing substructure inputs. -/
theorem claim_C6_absent_substructure_check :
    get_smb_shares_list [("shares", Value.vnull)] = Except.ok (Value.vlist [])
    ∧ get_nfs_aliases_list [("aliases", Value.vnull)] = Except.ok Value.vnull
    ∧ get_network_interfaces [] = Except.error "KeyError: interfaces" :=
  ⟨claim_C6_absent_substructure.1 [("shares", Value.vnull)] Value.vnull rfl rfl,
   claim_C6_absent_substructure.2.1 [("aliases", Value.vnull)] Value.vnull rfl,
   claim_C6_absent_substructure.2.2 [] rfl⟩

/-- C1: for a valid non-empty requested set whose handlers all succeed, the
report carries a top-level key for every one of the 39 categories: requested
categories hold their handler value, every other category holds its declared
empty default, and no key is omitted. -/
theorem claim_C1_full_report (env : Env) (p : Params) (f : String → Value)
    (hne : p.gather_subset ≠ [])
    (hval : ∀ x ∈ p.gather_subset, x ∈ gatherSubsetChoices)
    (hok : ∀ c ∈ p.gather_subset, env.run c = Except.ok (f c)) :
    ∃ R, (perform_module_operation env p).2 = Except.ok R
      ∧ R.map Prod.fst = reportOrder.map reportKeyOf
      ∧ ∀ c ∈ reportOrder,
          dget R (reportKeyOf c) =
            some (if c ∈ p.gather_subset then f c else defaultOf c) := by
  have hemp : p.gather_subset.isEmpty = false := by
    cases hps : p.gather_subset with
    | nil => exact absurd hps hne
    | cons a l => rfl
  have hf : ∀ c ∈ dispatchOrder, pyContains c p.gather_subset = true →
      env.run c = Except.ok (f c) := by
    intro c hc hP
    exact hok c ((pyContains_iff hval (dispatch_valid c hc)).mp hP)
  have hrun := runCats_ok env p f dispatchOrder hf
  refine ⟨buildReport ((dispatchOrder.filter
      (fun c => pyContains c p.gather_subset)).map (fun c => (c, f c))), ?_, ?_, ?_⟩
  · simp [perform_module_operation, hemp, hrun]
  · simp [buildReport, List.map_map, Function.comp]
  · intro c hcr
    have hcd := report_sub_dispatch c hcr
    have hinj : ∀ a ∈ reportOrder, reportKeyOf a = reportKeyOf c → a = c :=
      fun a ha hak => reportKey_inj a ha c hcr hak
    have hstep : dget (buildReport ((dispatchOrder.filter
        (fun c => pyContains c p.gather_subset)).map (fun c => (c, f c))))
          (reportKeyOf c) =
        some ((dget ((dispatchOrder.filter
          (fun c => pyContains c p.gather_subset)).map (fun c => (c, f c))) c).getD
            (defaultOf c)) :=
      dget_map_key reportKeyOf _ reportOrder c hcr hinj
    rw [hstep, dget_filter_map f _ c dispatchOrder dispatch_nodup hcd]
    by_cases hm : c ∈ p.gather_subset
    · rw [if_pos ((pyContains_iff hval (dispatch_valid c hcd)).mpr hm), if_pos hm]
      rfl
    · have hP : pyContains c p.gather_subset = false := by
        rcases hb : pyContains c p.gather_subset with _ | _
        · rfl
        · exact absurd ((pyContains_iff hval (dispatch_valid c hcd)).mp hb) hm
      rw [hP, if_neg hm]
      simp
  
/-- The remote collaborator with every handler succeeding, for witnesses. -/
def envAllOk : Env := ⟨fun c => Except.ok (Value.vstr c)⟩

/-- Parameters requesting only the `nodes` category, for witnesses. -/
def paramsNodes : Params := ⟨["nodes"], "System", false, "effective", "h1"⟩

/-- C1 witness: requesting only `nodes` yields a report with every category
key, `Nodes` holding the handler value and all others their empty default. -/
theorem claim_C1_full_report_check :
    ∃ R, (perform_module_operation envAllOk paramsNodes).2 = Except.ok R
      ∧ R.map Prod.fst = reportOrder.map reportKeyOf
      ∧ ∀ c ∈ reportOrder,
          dget R (reportKeyOf c) =
            some (if c ∈ paramsNodes.gather_subset then Value.vstr c else defaultOf c) :=
  claim_C1_full_report envAllOk paramsNodes (fun c => Value.vstr c)
    (by decide) (by decide) (fun c _ => rfl)

/-- C2: when every requested category before `c` in the dispatch chain
succeeds and `c`'s remote fetch fails, the invocation terminates with the
single structured fetch error of `c` — naming the failing category and the
target cluster host — no report is produced, and no category after `c` in
the dispatch order is ever invoked. -/
theorem claim_C2_fail_fast (env : Env) (p : Params) (c : String) (e : String)
    (pre post : List String)
    (horder : dispatchOrder = pre ++ c :: post)
    (hval : ∀ x ∈ p.gather_subset, x ∈ gatherSubsetChoices)
    (hmem : c ∈ p.gather_subset)
    (hrun : env.run c = Except.error e)
    (hpre : ∀ d ∈ pre, d ∈ p.gather_subset → ∃ v, env.run d = Except.ok v) :
    (perform_module_operation env p).2 =
      Except.error (ModuleError.fetch (mkFetchErr c p.onefs_host p.access_zone e))
    ∧ (mkFetchErr c p.onefs_host p.access_zone e).category = c
    ∧ (mkFetchErr c p.onefs_host p.access_zone e).host = p.onefs_host
    ∧ ∀ d ∈ post, d ∉ (perform_module_operation env p).1 := by
  have hcd : c ∈ dispatchOrder := by
    rw [horder]
    exact List.mem_append_right pre (List.mem_cons_self c post)
  have hcP : pyContains c p.gather_subset = true :=
    (pyContains_iff hval (dispatch_valid c hcd)).mpr hmem
  have hemp : p.gather_subset.isEmpty = false := by
    cases hps : p.gather_subset with
    | nil => rw [hps] at hmem; simp at hmem
    | cons a l => rfl
  have hpre' : ∀ d ∈ pre, pyContains d p.gather_subset = true →
      ∃ v, env.run d = Except.ok v := by
    intro d hd hP
    have hdd : d ∈ dispatchOrder := by
      rw [horder]; exact List.mem_append_left _ hd
    exact hpre d hd ((pyContains_iff hval (dispatch_valid d hdd)).mp hP)
  have haux := runCats_error_aux env p c e hrun hcP pre post hpre'
  have hnd : (pre ++ c :: post).Nodup := horder ▸ dispatch_nodup
  refine ⟨?_, rfl, rfl, ?_⟩
  · simp [perform_module_operation, hemp, horder, haux.1]
  · intro d hdpost hdtr
    have hdtr' : d ∈ (runCats env p (pre ++ c :: post)).1 := by
      simpa [perform_module_operation, hemp, horder] using hdtr
    have hsplit := List.nodup_append.mp hnd
    rcases haux.2 d hdtr' with h | h
    · exact hsplit.2.2 h (List.mem_cons_of_mem c hdpost)
    · exact (List.nodup_cons.mp hsplit.2.1).1 (h ▸ hdpost)

/-- The remote collaborator whose `nodes` fetch fails, for the C2 witness. -/
def envNodesFail : Env :=
  ⟨fun c => if c = "nodes" then Except.error "boom" else Except.ok Value.vnull⟩

/-- Parameters requesting only `nodes`, with a distinct host, for C2. -/
def paramsOnlyNodes : Params := ⟨["nodes"], "System", false, "effective", "10.1.1.1"⟩

/-- C2 witness: the `nodes` fetch failure aborts the invocation with the
`nodes` fetch error, and none of the 36 categories after `nodes` in the
dispatch chain is invoked. -/
theorem claim_C2_fail_fast_check :
    (perform_module_operation envNodesFail paramsOnlyNodes).2 =
      Except.error (ModuleError.fetch (mkFetchErr "nodes" "10.1.1.1" "System" "boom"))
    ∧ (mkFetchErr "nodes" "10.1.1.1" "System" "boom").category = "nodes"
    ∧ (mkFetchErr "nodes" "10.1.1.1" "System" "boom").host = "10.1.1.1"
    ∧ ∀ d ∈ dispatchOrder.drop 3,
        d ∉ (perform_module_operation envNodesFail paramsOnlyNodes).1 :=
  claim_C2_fail_fast envNodesFail paramsOnlyNodes "nodes" "boom"
    (dispatchOrder.take 2) (dispatchOrder.drop 3) (by decide) (by decide)
    (by decide) rfl
    (by
      intro d hd hm
      have hdn : d = "nodes" := by simpa [paramsOnlyNodes] using hm
      exact absurd (hdn ▸ hd) (by decide))

/-- C3: supplying both an explicit `access_zone` and
`include_all_access_zones=true` fails `AnsibleModule` validation before any
remote call is made: the invocation terminates with the mutual-exclusivity
validation error and the handler trace is empty. -/
theorem claim_C3_mutual_exclusion (env : Env) (raw : RawParams) (z : String)
    (hz : raw.access_zone = some z)
    (hia : raw.include_all_access_zones = some true) :
    (runModule env raw).1 = []
    ∧ (runModule env raw).2 = Except.error (ModuleError.validation
        "parameters are mutually exclusive: access_zone|include_all_access_zones") := by
  have hv : validate raw = Except.error
      "parameters are mutually exclusive: access_zone|include_all_access_zones" := by
    simp [validate, hz, hia]
  constructor
  · simp [runModule, hv]
  · simp [runModule, hv]

/-- C3 witness: concrete raw arguments with both parameters supplied. -/
theorem claim_C3_mutual_exclusion_check :
    (runModule envAllOk
      ⟨some ["nodes"], some "zone1", some true, none, "10.1.1.1"⟩).1 = []
    ∧ (runModule envAllOk
        ⟨some ["nodes"], some "zone1", some true, none, "10.1.1.1"⟩).2 =
      Except.error (ModuleError.validation
        "parameters are mutually exclusive: access_zone|include_all_access_zones") :=
  claim_C3_mutual_exclusion envAllOk
    ⟨some ["nodes"], some "zone1", some true, none, "10.1.1.1"⟩ "zone1" rfl rfl

/-- C7: two requested lists that are equal as sets (permutations or
duplications of each other) produce identical invocations: the same handlers
run in the same fixed dispatch order and the resulting report is
identical. -/
theorem claim_C7_order_insensitivity (env : Env) (s₁ s₂ : List String)
    (az : String) (ia : Bool) (sc : String) (host : String)
    (hval₁ : ∀ x ∈ s₁, x ∈ gatherSubsetChoices)
    (hval₂ : ∀ x ∈ s₂, x ∈ gatherSubsetChoices)
    (hset : ∀ x, x ∈ s₁ ↔ x ∈ s₂) :
    perform_module_operation env ⟨s₁, az, ia, sc, host⟩ =
      perform_module_operation env ⟨s₂, az, ia, sc, host⟩ := by
  have hPc : ∀ c ∈ dispatchOrder, pyContains c s₁ = pyContains c s₂ := by
    intro c hc
    have hcv := dispatch_valid c hc
    by_cases hm : c ∈ s₁
    · rw [(pyContains_iff hval₁ hcv).mpr hm,
        (pyContains_iff hval₂ hcv).mpr ((hset c).mp hm)]
    · have h1 : pyContains c s₁ = false := by
        rcases hb : pyContains c s₁ with _ | _
        · rfl
        · exact absurd ((pyContains_iff hval₁ hcv).mp hb) hm
      have h2 : pyContains c s₂ = false := by
        rcases hb : pyContains c s₂ with _ | _
        · rfl
        · exact absurd ((pyContains_iff hval₂ hcv).mp hb)
            (fun hh => hm ((hset c).mpr hh))
      rw [h1, h2]
  have hrc := runCats_congr env s₁ s₂ az ia sc host dispatchOrder hPc
  have hemp : s₁.isEmpty = s₂.isEmpty := by
    cases s₁ with
    | nil =>
      cases s₂ with
      | nil => rfl
      | cons y ys =>
        exact absurd ((hset y).mpr (List.mem_cons_self y ys)) (List.not_mem_nil y)
    | cons x xs =>
      cases s₂ with
      | nil =>
        exact absurd ((hset x).mp (List.mem_cons_self x xs)) (List.not_mem_nil x)
      | cons y ys => rfl
  simp only [perform_module_operation, hemp, hrc]

/-- C7 witness: a two-element list against a permuted, duplicated version. -/
theorem claim_C7_order_insensitivity_check :
    perform_module_operation envAllOk
        ⟨["users", "nodes"], "System", false, "effective", "h1"⟩ =
      perform_module_operation envAllOk
        ⟨["nodes", "users", "nodes"], "System", false, "effective", "h1"⟩ :=
  claim_C7_order_insensitivity envAllOk ["users", "nodes"]
    ["nodes", "users", "nodes"] "System" false "effective" "h1"
    (by decide) (by decide)
    (by intro x; simp only [List.mem_cons, List.not_mem_nil, or_false]; tauto)

/-- C8: a valid category absent from the requested set is never invoked: it
does not appear in the handler trace, so no remote call for its resource is
issued during the invocation. -/
theorem claim_C8_unrequested_not_invoked (env : Env) (p : Params) (c : String)
    (hval : ∀ x ∈ p.gather_subset, x ∈ gatherSubsetChoices)
    (hc : c ∈ gatherSubsetChoices) (hnot : c ∉ p.gather_subset) :
    c ∉ (perform_module_operation env p).1 := by
  by_cases he : p.gather_subset.isEmpty = true
  · simp [perform_module_operation, he]
  · have he' : p.gather_subset.isEmpty = false := by simpa using he
    intro hmem
    have hmem' : c ∈ (runCats env p dispatchOrder).1 := by
      simpa [perform_module_operation, he'] using hmem
    have hP := runCats_trace_requested env p dispatchOrder c hmem'
    exact hnot ((pyContains_iff hval hc).mp hP)

/-- C8 witness: requesting only `nodes` never invokes the `users` handler. -/
theorem claim_C8_unrequested_not_invoked_check :
    "users" ∉ (perform_module_operation envAllOk paramsNodes).1 :=
  claim_C8_unrequested_not_invoked envAllOk paramsNodes "users"
    (by decide) (by decide) (by decide)
